import Mathlib

/-!
Verification of the math-predictor-service core against its specification.

Python floats are modelled as exact rationals (`ℚ`).  Python's `round`
(banker's rounding to `n` decimal digits) is modelled by `pyRound`.
`math.exp` is transcendental, hence not a rational function; it is modelled
as an abstract parameter `pexp : ℚ → ℚ` threaded through the statistical
engine, with nonnegativity assumed where a theorem needs it (true of the
real exponential).  Runtime errors (`TypeError`, `ValueError`, `KeyError`,
`ZeroDivisionError`) are modelled with `Except PyErr`.
-/

/-- Python runtime errors that the backtest code can raise or catch. -/
inductive PyErr where
  | typeError
  | valueError
  | keyError
  | zeroDivisionError
deriving DecidableEq, Repr

/-- Round a rational to the nearest integer, ties to even
(the rounding used by Python's builtin `round`). -/
def roundHalfEven (q : ℚ) : ℤ :=
  let f := ⌊q⌋
  let r := q - f
  if r < 1/2 then f
  else if 1/2 < r then f + 1
  else if f % 2 = 0 then f else f + 1

/-- Model of Python's `round(q, n)` for `n` decimal digits. -/
def pyRound (q : ℚ) (n : ℕ) : ℚ :=
  (roundHalfEven (q * 10 ^ n) : ℚ) / 10 ^ n

/-- Model of Python float division: raises `ZeroDivisionError` on a zero
denominator, as `1/odds` does in the fuzzy engine. -/
def pyDiv (a b : ℚ) : Except PyErr ℚ :=
  if b = 0 then .error .zeroDivisionError else .ok (a / b)

/-- Source writes `max(0.0, min(1.0, x))`; abbreviated here. -/
def clamp01 (x : ℚ) : ℚ := max 0 (min 1 x)

/-- Embedding of `app/core/kelly.py::calculate_stake`.
The Python source returns at line 66; lines 67-87 after that `return`
(including a 25% cap) are unreachable and therefore not part of the model. -/
def calculate_stake (probability odds bankroll kelly_fraction : ℚ) : ℚ × ℚ :=
  if probability ≤ 0 ∨ 1 ≤ probability then (0, 0)
  else if odds ≤ 1 then (0, 0)
  else
    let b := odds - 1
    let q := 1 - probability
    let full_kelly := (probability * b - q) / b
    let kelly := max 0 (full_kelly * kelly_fraction)
    let kelly_capped := min kelly (1/20)
    let stake := bankroll * kelly_capped
    (pyRound kelly_capped 4, pyRound stake 2)

/-- The full-Kelly fraction scaled by the caller's multiplier, as computed at
`kelly.py` lines 51-58 (before the `max 0` guard). -/
def kellyScaled (probability odds kelly_fraction : ℚ) : ℚ :=
  ((probability * (odds - 1) - (1 - probability)) / (odds - 1)) * kelly_fraction

/-- Embedding of `app/core/hybrid_engine.py::combine_probabilities`.
Callers in this repository pass the default confidences 0.5 and 0.5;
the defaults are made explicit arguments here.  The code after the
`return` at line 59 is unreachable and not modelled. -/
def combine_probabilities (p_stat p_fuzzy : ℚ × ℚ × ℚ)
    (stat_confidence fuzzy_confidence : ℚ) : ℚ × ℚ × ℚ :=
  let total_conf := stat_confidence + fuzzy_confidence
  let sc := if total_conf = 0 then (1:ℚ)/2 else stat_confidence
  let fc := if total_conf = 0 then (1:ℚ)/2 else fuzzy_confidence
  let tc := if total_conf = 0 then (1:ℚ) else total_conf
  let w_stat := sc / tc
  let w_fuzzy := fc / tc
  let p_home := w_stat * p_stat.1 + w_fuzzy * p_fuzzy.1
  let p_draw := w_stat * p_stat.2.1 + w_fuzzy * p_fuzzy.2.1
  let p_away := w_stat * p_stat.2.2 + w_fuzzy * p_fuzzy.2.2
  let total := p_home + p_draw + p_away
  let h := if 0 < total then p_home / total else 1/3
  let d := if 0 < total then p_draw / total else 1/3
  let a := if 0 < total then p_away / total else 1/3
  (clamp01 h, clamp01 d, clamp01 a)

/-- Modelled from the spec's words (claim C9's general sentence): each output
component is the confidence-weighted sum of the two inputs' corresponding
components, renormalized to sum to 1 (uniform 1/3 fallback on non-positive
total) and clamped to [0,1]; confidence weights are normalized to sum to 1,
defaulting to 0.5 each when their sum is 0.  Compared against
`combine_probabilities`, which is translated from the source. -/
def combineSpec (p_stat p_fuzzy : ℚ × ℚ × ℚ)
    (stat_confidence fuzzy_confidence : ℚ) : ℚ × ℚ × ℚ :=
  let w_stat := if stat_confidence + fuzzy_confidence = 0 then (1:ℚ)/2
    else stat_confidence / (stat_confidence + fuzzy_confidence)
  let w_fuzzy := if stat_confidence + fuzzy_confidence = 0 then (1:ℚ)/2
    else fuzzy_confidence / (stat_confidence + fuzzy_confidence)
  let h := w_stat * p_stat.1 + w_fuzzy * p_fuzzy.1
  let d := w_stat * p_stat.2.1 + w_fuzzy * p_fuzzy.2.1
  let a := w_stat * p_stat.2.2 + w_fuzzy * p_fuzzy.2.2
  let total := h + d + a
  if 0 < total then (clamp01 (h / total), clamp01 (d / total), clamp01 (a / total))
  else (1/3, 1/3, 1/3)

namespace fuzzy_engine

/-- Embedding of `FuzzyEngine.triangular_membership` from
`app/core/fuzzy_engine.py`. -/
def triangular_membership (x a b c : ℚ) : ℚ :=
  if x ≤ a ∨ c ≤ x then 0
  else if a < x ∧ x ≤ b then (if a < b then (x - a) / (b - a) else 0)
  else (if b < c then (c - x) / (c - b) else 0)

/-- Membership degrees and the implied home probability produced by
`FuzzyEngine.fuzzify`. -/
structure FuzzySets where
  home_low : ℚ
  home_med : ℚ
  home_high : ℚ
  away_low : ℚ
  away_med : ℚ
  away_high : ℚ
  prob_low : ℚ
  prob_med : ℚ
  prob_high : ℚ
  implied_prob : ℚ
deriving DecidableEq, Repr

/-- Embedding of `FuzzyEngine.fuzzify`.  The divisions `1/odds_*` and the
division by `total_odds` are unguarded in the source and raise
`ZeroDivisionError` on a zero denominator. -/
def fuzzify (home_goals away_goals odds_home odds_draw odds_away : ℚ) :
    Except PyErr FuzzySets := do
  let ih ← pyDiv 1 odds_home
  let idr ← pyDiv 1 odds_draw
  let ia ← pyDiv 1 odds_away
  let total_odds := ih + idr + ia
  let implied_prob_home ← pyDiv ih total_odds
  pure
    { home_low := triangular_membership home_goals 0 (1/2) (3/2)
      home_med := triangular_membership home_goals 1 (3/2) (5/2)
      home_high := triangular_membership home_goals 2 3 5
      away_low := triangular_membership away_goals 0 (1/2) (3/2)
      away_med := triangular_membership away_goals 1 (3/2) (5/2)
      away_high := triangular_membership away_goals 2 3 5
      prob_low := triangular_membership implied_prob_home 0 (1/4) (9/20)
      prob_med := triangular_membership implied_prob_home (7/20) (1/2) (13/20)
      prob_high := triangular_membership implied_prob_home (11/20) (3/4) 1
      implied_prob := implied_prob_home }

/-- Firing strengths of the five Sugeno rules (`FuzzyEngine.apply_rules`). -/
structure RuleFire where
  very_high : ℚ
  high : ℚ
  medium : ℚ
  low : ℚ
  very_low : ℚ
deriving DecidableEq, Repr

/-- Embedding of `FuzzyEngine.apply_rules`. -/
def apply_rules (fs : FuzzySets) : RuleFire :=
  { very_high := min fs.home_high fs.away_low
    high := max (max (min fs.home_high fs.away_med) (min fs.home_med fs.away_low))
      (min fs.prob_high fs.home_med)
    medium := max fs.home_med (min fs.prob_med fs.home_med)
    low := min fs.away_high (1 - fs.home_high)
    very_low := min fs.away_high fs.home_low }

/-- Embedding of `FuzzyEngine.defuzzify` with the fixed Sugeno consequents
`very_high=0.85, high=0.70, medium=0.50, low=0.30, very_low=0.15`. -/
def defuzzify (rf : RuleFire) : ℚ :=
  let numerator := rf.very_high * (17/20) + rf.high * (7/10) + rf.medium * (1/2)
    + rf.low * (3/10) + rf.very_low * (3/20)
  let denominator := rf.very_high + rf.high + rf.medium + rf.low + rf.very_low
  if denominator = 0 then 1/2 else numerator / denominator

/-- Embedding of `app/core/fuzzy_engine.py::calculate_probability`. -/
def calculate_probability (home_goals_avg away_goals_avg odds_home odds_draw
    odds_away : ℚ) : Except PyErr (ℚ × ℚ × ℚ) := do
  let fuzzy_sets ← fuzzify home_goals_avg away_goals_avg odds_home odds_draw odds_away
  let rule_fire := apply_rules fuzzy_sets
  let p_home := defuzzify rule_fire
  let goal_diff_away := away_goals_avg - home_goals_avg
  let p_away_base := max 0 (min 1 (1/2 + goal_diff_away * (3/20)))
  let ih ← pyDiv 1 odds_home
  let idr ← pyDiv 1 odds_draw
  let ia ← pyDiv 1 odds_away
  let total_odds_inv := ih + idr + ia
  let implied_home ← pyDiv ih total_odds_inv
  let implied_draw ← pyDiv idr total_odds_inv
  let implied_away ← pyDiv ia total_odds_inv
  let p_home_final := (3/5) * p_home + (2/5) * implied_home
  let p_away_final := (3/5) * p_away_base + (2/5) * implied_away
  let p_draw_final := (3/5) * max 0 (1 - p_home - p_away_base) + (2/5) * implied_draw
  let total := p_home_final + p_draw_final + p_away_final
  let fh := if 0 < total then p_home_final / total else 1/3
  let fd := if 0 < total then p_draw_final / total else 1/3
  let fa := if 0 < total then p_away_final / total else 1/3
  pure (clamp01 fh, clamp01 fd, clamp01 fa)

end fuzzy_engine

namespace stat_engine

/-- Embedding of `app/core/stat_engine.py::_poisson_probability`, with the
machine exponential abstracted as `pexp`. -/
def poisson_probability (pexp : ℚ → ℚ) (k : ℕ) (lam : ℚ) : ℚ :=
  if lam ≤ 0 then 0 else pexp (-lam) * lam ^ k / (Nat.factorial k : ℚ)

/-- The double loop of `calculate_probability` over home/away goal counts
`0..5`, accumulating `(p_home_poisson, p_draw_poisson, p_away_poisson)`. -/
def poisson_sums (pexp : ℚ → ℚ) (adj_home_goals away_goals_avg : ℚ) : ℚ × ℚ × ℚ :=
  (List.range 6).foldl (fun acc home_goals =>
    let p_home := poisson_probability pexp home_goals adj_home_goals
    (List.range 6).foldl (fun acc2 away_goals =>
      let p_away := poisson_probability pexp away_goals away_goals_avg
      if away_goals < home_goals then (acc2.1 + p_home * p_away, acc2.2.1, acc2.2.2)
      else if home_goals = away_goals then (acc2.1, acc2.2.1 + p_home * p_away, acc2.2.2)
      else (acc2.1, acc2.2.1, acc2.2.2 + p_home * p_away)) acc) (0, 0, 0)

/-- Embedding of `app/core/stat_engine.py::calculate_probability`.
The home-advantage multiplier `1.15` is `23/20`. -/
def calculate_probability (pexp : ℚ → ℚ)
    (home_goals_avg away_goals_avg home_win_rate away_win_rate : ℚ) : ℚ × ℚ × ℚ :=
  let hga := max (1/10) (min home_goals_avg 5)
  let aga := max (1/10) (min away_goals_avg 5)
  let hwr := max (1/100) (min home_win_rate (99/100))
  let awr := max (1/100) (min away_win_rate (99/100))
  let adj_home_goals := hga * (23/20)
  let ps := poisson_sums pexp adj_home_goals aga
  let draw_rate := max (1/10) (1 - hwr - awr)
  let p_home_hybrid := (3/5) * ps.1 + (2/5) * hwr
  let p_draw_hybrid := (3/5) * ps.2.1 + (2/5) * draw_rate
  let p_away_hybrid := (3/5) * ps.2.2 + (2/5) * awr
  let total := p_home_hybrid + p_draw_hybrid + p_away_hybrid
  let nh := if 0 < total then p_home_hybrid / total else 1/3
  let nd := if 0 < total then p_draw_hybrid / total else 1/3
  let na := if 0 < total then p_away_hybrid / total else 1/3
  (clamp01 ((7/10) * nh + (3/10) * (1/3)),
   clamp01 ((7/10) * nd + (3/10) * (1/3)),
   clamp01 ((7/10) * na + (3/10) * (1/3)))

end stat_engine

/-- One CSV cell as seen by `float(row.get(...))` in
`app/core/backtester.py`: the key can be missing (`row.get` returns `None`
and `float(None)` raises `TypeError`), the text can be non-numeric
(`float` raises `ValueError`), or it parses to a number. -/
inductive Cell where
  | missing
  | malformed
  | val (q : ℚ)
deriving DecidableEq, Repr

/-- The `outcome` cell, parsed with `int(...)`: missing raises `TypeError`,
non-integer text raises `ValueError`. -/
inductive OutCell where
  | missing
  | malformed
  | ival (z : ℤ)
deriving DecidableEq, Repr

/-- One dataset row with the eight expected columns. -/
structure RawRow where
  home_goals_avg : Cell
  away_goals_avg : Cell
  home_win_rate : Cell
  away_win_rate : Cell
  odds_home : Cell
  odds_draw : Cell
  odds_away : Cell
  outcome : OutCell
deriving DecidableEq, Repr

/-- A row all of whose cells parse successfully. -/
def mkRow (hga aga hwr awr oh od oa : ℚ) (z : ℤ) : RawRow :=
  ⟨.val hga, .val aga, .val hwr, .val awr, .val oh, .val od, .val oa, .ival z⟩

/-- `float(row.get(key))`: `TypeError` on a missing key, `ValueError` on
non-numeric text. -/
def parseCell : Cell → Except PyErr ℚ
  | .missing => .error .typeError
  | .malformed => .error .valueError
  | .val q => .ok q

/-- `int(row.get('outcome'))`. -/
def parseOutcome : OutCell → Except PyErr ℤ
  | .missing => .error .typeError
  | .malformed => .error .valueError
  | .ival z => .ok z

/-- Mutable state of one backtest run: bankroll, equity curve and the two
bet counters. -/
structure BTState where
  bankroll : ℚ
  equity_curve : List ℚ
  total_bets : ℕ
  winning_bets : ℕ
deriving DecidableEq, Repr

/-- The body of the row loop in `run_backtest` (backtester.py lines 57-117),
before the `except (ValueError, KeyError)` handler.  Lines 59-67 parse the
eight cells in source order; lines 74-78 are the Validate gate; line 87
produces the hybrid tuple; line 93 is `if p_hybrid <= (implied_prob +
min_edge)`, which compares the 3-tuple `p_hybrid` with a float — in Python 3
that comparison raises `TypeError`, so every row reaching this point raises. -/
def rowInner (pexp : ℚ → ℚ) (s : BTState) (r : RawRow) : Except PyErr BTState :=
  parseCell r.home_goals_avg >>= fun home_goals_avg =>
  parseCell r.away_goals_avg >>= fun away_goals_avg =>
  parseCell r.home_win_rate >>= fun home_win_rate =>
  parseCell r.away_win_rate >>= fun away_win_rate =>
  parseCell r.odds_home >>= fun odds_home =>
  parseCell r.odds_draw >>= fun odds_draw =>
  parseCell r.odds_away >>= fun odds_away =>
  parseOutcome r.outcome >>= fun _outcome =>
  if 1 ≤ odds_home ∨ 1 ≤ odds_draw ∨ 1 ≤ odds_away then .ok s
  else if ¬(0 ≤ home_win_rate ∧ home_win_rate ≤ 1)
      ∨ ¬(0 ≤ away_win_rate ∧ away_win_rate ≤ 1) then .ok s
  else
    let p_stat := stat_engine.calculate_probability pexp
      home_goals_avg away_goals_avg home_win_rate away_win_rate
    fuzzy_engine.calculate_probability
      home_goals_avg away_goals_avg odds_home odds_draw odds_away >>= fun p_fuzzy =>
    let _p_hybrid := combine_probabilities p_stat p_fuzzy (1/2) (1/2)
    pyDiv 1 odds_home >>= fun _implied_prob =>
    Except.error .typeError

/-- One iteration of the row loop including the per-row
`except (ValueError, KeyError): continue` handler (lines 119-121).
Other exceptions propagate. -/
def rowStep (pexp : ℚ → ℚ) (s : BTState) (r : RawRow) : Except PyErr BTState :=
  match rowInner pexp s r with
  | .error .valueError => .ok s
  | .error .keyError => .ok s
  | other => other

/-- The `for row in reader` loop. -/
def btFold (pexp : ℚ → ℚ) : BTState → List RawRow → Except PyErr BTState
  | s, [] => .ok s
  | s, r :: rs =>
    match rowStep pexp s r with
    | .error e => .error e
    | .ok s' => btFold pexp s' rs

/-- The dictionary returned by `run_backtest` (backtester.py lines 127-134). -/
structure BacktestResult where
  roi : ℚ
  total_bets : ℕ
  winning_bets : ℕ
  losing_bets : ℕ
  equity_curve : List ℚ
  final_bankroll : ℚ
deriving DecidableEq, Repr

/-- Embedding of `app/core/backtester.py::run_backtest` on an already-opened
dataset (the `FileNotFoundError` path concerns the file system boundary and
is outside this model).  The equity curve is seeded with the initial
bankroll before the loop; metrics are computed and rounded at the end. -/
def run_backtest (pexp : ℚ → ℚ) (rows : List RawRow)
    (initial_bankroll : ℚ) : Except PyErr BacktestResult :=
  match btFold pexp ⟨initial_bankroll, [initial_bankroll], 0, 0⟩ rows with
  | .error e => .error e
  | .ok s =>
    let losing_bets := s.total_bets - s.winning_bets
    let roi := if 0 < initial_bankroll
      then ((s.bankroll - initial_bankroll) / initial_bankroll) * 100 else 0
    .ok { roi := pyRound roi 2
          total_bets := s.total_bets
          winning_bets := s.winning_bets
          losing_bets := losing_bets
          equity_curve := s.equity_curve.map (fun v => pyRound v 2)
          final_bankroll := pyRound s.bankroll 2 }

/-- Rows that the loop skips via `continue`: the first cell failure in
source parse order is a `ValueError`-style one (present but non-numeric),
or all cells parse and the Validate gate (odds ≥ 1, or a win rate outside
[0,1]) fires.  A row whose first failing cell is missing raises `TypeError`
instead and is not included. -/
def rowSkips (r : RawRow) : Bool :=
  match r.home_goals_avg, r.away_goals_avg, r.home_win_rate, r.away_win_rate,
      r.odds_home, r.odds_draw, r.odds_away, r.outcome with
  | .malformed, _, _, _, _, _, _, _ => true
  | .val _, .malformed, _, _, _, _, _, _ => true
  | .val _, .val _, .malformed, _, _, _, _, _ => true
  | .val _, .val _, .val _, .malformed, _, _, _, _ => true
  | .val _, .val _, .val _, .val _, .malformed, _, _, _ => true
  | .val _, .val _, .val _, .val _, .val _, .malformed, _, _ => true
  | .val _, .val _, .val _, .val _, .val _, .val _, .malformed, _ => true
  | .val _, .val _, .val _, .val _, .val _, .val _, .val _, .malformed => true
  | .val _, .val _, .val hwr, .val awr, .val oh, .val od, .val oa, .ival _ =>
    decide (1 ≤ oh ∨ 1 ≤ od ∨ 1 ≤ oa
      ∨ ¬(0 ≤ hwr ∧ hwr ≤ 1) ∨ ¬(0 ≤ awr ∧ awr ≤ 1))
  | _, _, _, _, _, _, _, _ => false

/-- A parseable row that passes the Validate gate (all odds < 1, win rates
in [0,1]) and therefore reaches the EdgeCheck comparison at
backtester.py line 93. -/
def c1Row : RawRow := mkRow (3/2) (6/5) (1/2) (1/2) (1/2) (1/2) (1/2) 1

/-- The single row of the claim C2 scenario: goals 1.5/1.2, win rates
0.55/0.45, odds 2.0/3.5/3.8, outcome 1. -/
def c2Row : RawRow := mkRow (3/2) (6/5) (11/20) (9/20) 2 (7/2) (19/5) 1

/-- The result `run_backtest` returns for the claim C2 scenario. -/
def c2Result : BacktestResult :=
  { roi := 0, total_bets := 0, winning_bets := 0, losing_bets := 0
    equity_curve := [7000], final_bankroll := 7000 }

/-- The fuzzy-model distribution for the C2 fixture (a concrete rational
triple; the fuzzy engine does not depend on `math.exp`). -/
def c2FuzzyTriple : ℚ × ℚ × ℚ :=
  match fuzzy_engine.calculate_probability (3/2) (6/5) 2 (7/2) (19/5) with
  | .ok v => v
  | .error _ => (0, 0, 0)

/-- The hybrid home-win probability the pipeline computes for the C2
fixture, as a function of the machine exponential. -/
def c2HybridHome (pexp : ℚ → ℚ) : ℚ :=
  (combine_probabilities
    (stat_engine.calculate_probability pexp (3/2) (6/5) (11/20) (9/20))
    c2FuzzyTriple (1/2) (1/2)).1

/-- Poisson mass accumulated on home-win grid cells for the C2 fixture
(adjusted home rate 69/40, away rate 6/5), with the exponential factor
divided out (obtained by evaluating the grid at the constant-one
exponential; the true sums are these constants times
`exp(-69/40) * exp(-6/5)`). -/
def c2Kh : ℚ := (stat_engine.poisson_sums (fun _ => 1) (69/40) (6/5)).1

/-- Poisson mass on draw grid cells for the C2 fixture, exponential factor
divided out. -/
def c2Kd : ℚ := (stat_engine.poisson_sums (fun _ => 1) (69/40) (6/5)).2.1

/-- Poisson mass on away-win grid cells for the C2 fixture, exponential
factor divided out. -/
def c2Ka : ℚ := (stat_engine.poisson_sums (fun _ => 1) (69/40) (6/5)).2.2

/-- A parseable row that passes the Validate gate but has `odds_home = 0`,
driving `1/odds_home` in `FuzzyEngine.fuzzify` into a `ZeroDivisionError`. -/
def c10Row : RawRow := mkRow (3/2) (6/5) (1/2) (1/2) 0 (1/2) (1/2) 1

/-- A row whose `home_goals_avg` column is missing: `row.get` yields `None`
and `float(None)` raises `TypeError`, which `except (ValueError, KeyError)`
does not catch. -/
def c4MissingRow : RawRow :=
  ⟨.missing, .val (6/5), .val (11/20), .val (9/20), .val 2, .val (7/2),
    .val (19/5), .ival 1⟩

section MonadLemmas

theorem ok_bind {α β : Type} (a : α) (f : α → Except PyErr β) :
    (Except.ok a : Except PyErr α) >>= f = f a := rfl

theorem error_bind {α β : Type} (e : PyErr) (f : α → Except PyErr β) :
    (Except.error e : Except PyErr α) >>= f = Except.error e := rfl

theorem pure_eq_ok {α : Type} (a : α) : (pure a : Except PyErr α) = Except.ok a := rfl

end MonadLemmas

section RoundingLemmas

theorem roundHalfEven_le (q : ℚ) : (roundHalfEven q : ℚ) ≤ q + 1/2 := by
  simp only [roundHalfEven]
  have hfl : (⌊q⌋ : ℚ) ≤ q := Int.floor_le q
  split_ifs with h1 h2 h3 <;> first | linarith | (push_cast; linarith)

theorem le_roundHalfEven (q : ℚ) : q - 1/2 ≤ (roundHalfEven q : ℚ) := by
  simp only [roundHalfEven]
  have hfl : q < (⌊q⌋ : ℚ) + 1 := Int.lt_floor_add_one q
  split_ifs with h1 h2 h3 <;> first | linarith | (push_cast; linarith)

theorem pyRound_le_of_mul_le {x : ℚ} {n : ℕ} {z : ℤ} (h : x * 10 ^ n ≤ (z : ℚ)) :
    pyRound x n ≤ (z : ℚ) / 10 ^ n := by
  unfold pyRound
  have h1 : (roundHalfEven (x * 10 ^ n) : ℚ) ≤ (z : ℚ) + 1/2 :=
    le_trans (roundHalfEven_le _) (by linarith)
  have h2 : (roundHalfEven (x * 10 ^ n) : ℚ) < (z : ℚ) + 1 := by linarith
  have h3 : roundHalfEven (x * 10 ^ n) < z + 1 := by exact_mod_cast h2
  have h4 : (roundHalfEven (x * 10 ^ n) : ℚ) ≤ (z : ℚ) := by
    have := Int.lt_add_one_iff.mp h3
    exact_mod_cast this
  have hp : (0 : ℚ) < 10 ^ n := by positivity
  exact (div_le_div_iff_of_pos_right hp).mpr h4

theorem pyRound_nonneg {x : ℚ} (n : ℕ) (h : 0 ≤ x) : 0 ≤ pyRound x n := by
  unfold pyRound
  have h1 : x * 10 ^ n - 1/2 ≤ (roundHalfEven (x * 10 ^ n) : ℚ) := le_roundHalfEven _
  have h2 : (0 : ℚ) ≤ x * 10 ^ n := by positivity
  have h3 : (-1 : ℚ) < (roundHalfEven (x * 10 ^ n) : ℚ) := by linarith
  have h4 : (-1 : ℤ) < roundHalfEven (x * 10 ^ n) := by exact_mod_cast h3
  have h5 : (0 : ℚ) ≤ (roundHalfEven (x * 10 ^ n) : ℚ) := by
    have : (0 : ℤ) ≤ roundHalfEven (x * 10 ^ n) := by omega
    exact_mod_cast this
  positivity

theorem pyRound_le_add_half (x : ℚ) (n : ℕ) : pyRound x n ≤ x + 1 / (2 * 10 ^ n) := by
  unfold pyRound
  have h1 : (roundHalfEven (x * 10 ^ n) : ℚ) ≤ x * 10 ^ n + 1/2 := roundHalfEven_le _
  have hp : (0 : ℚ) < 10 ^ n := by positivity
  rw [div_le_iff₀ hp]
  have : (x + 1 / (2 * 10 ^ n)) * 10 ^ n = x * 10 ^ n + 1/2 := by
    field_simp
    ring
  linarith [this ▸ le_refl ((x + 1 / (2 * 10 ^ n)) * 10 ^ n)]

theorem pyRound_zero (n : ℕ) : pyRound 0 n = 0 := by
  unfold pyRound roundHalfEven
  norm_num

theorem pyRound_eq_of_lt_half {x : ℚ} {n : ℕ} {z : ℤ} (h1 : (z : ℚ) ≤ x * 10 ^ n)
    (h2 : x * 10 ^ n < (z : ℚ) + 1/2) : pyRound x n = (z : ℚ) / 10 ^ n := by
  have hfl : ⌊x * 10 ^ n⌋ = z := Int.floor_eq_iff.mpr ⟨h1, by linarith⟩
  unfold pyRound
  simp only [roundHalfEven, hfl]
  rw [if_pos (by linarith)]

end RoundingLemmas

section ClampLemmas

theorem clamp01_le_of_le {x c : ℚ} (hc : 0 ≤ c) (h : x ≤ c) : clamp01 x ≤ c := by
  unfold clamp01
  exact max_le hc (le_trans (min_le_right 1 x) h)

theorem clamp01_eq_self {x : ℚ} (h0 : 0 ≤ x) (h1 : x ≤ 1) : clamp01 x = x := by
  unfold clamp01
  rw [min_eq_right h1, max_eq_right h0]

end ClampLemmas

section BacktestLemmas

theorem bind_eq_ok {α β : Type} {m : Except PyErr α} {f : α → Except PyErr β} {b : β}
    (h : m >>= f = .ok b) : ∃ a, m = .ok a ∧ f a = .ok b := by
  cases m with
  | error e => rw [error_bind] at h; exact Except.noConfusion h
  | ok a => exact ⟨a, rfl, h⟩

theorem pyDiv_ok {a b : ℚ} (h : b ≠ 0) : pyDiv a b = .ok (a / b) := by
  unfold pyDiv
  rw [if_neg h]

/-- The fuzzy engine succeeds whenever none of its four divisions hits a
zero denominator. -/
theorem fuzzy_ok (hg ag oh od oa : ℚ) (h1 : oh ≠ 0) (h2 : od ≠ 0) (h3 : oa ≠ 0)
    (h4 : 1/oh + 1/od + 1/oa ≠ 0) :
    ∃ v, fuzzy_engine.calculate_probability hg ag oh od oa = .ok v := by
  unfold fuzzy_engine.calculate_probability fuzzy_engine.fuzzify
  simp only [pyDiv_ok h1, pyDiv_ok h2, pyDiv_ok h3, ok_bind, pyDiv_ok h4,
    pure_eq_ok]
  exact ⟨_, rfl⟩

/-- A zero `odds_home` drives `1/odds_home` in `fuzzify` into
`ZeroDivisionError`. -/
theorem fuzzy_zero_div (hg ag od oa : ℚ) :
    fuzzy_engine.calculate_probability hg ag 0 od oa = .error .zeroDivisionError := by
  unfold fuzzy_engine.calculate_probability fuzzy_engine.fuzzify
  have h0 : pyDiv 1 0 = (.error .zeroDivisionError : Except PyErr ℚ) := by
    unfold pyDiv
    rw [if_pos rfl]
  simp only [h0, error_bind]

/-- Every successful path through one row of the loop leaves the state
unchanged: the Settle/Record code is unreachable because the EdgeCheck
comparison raises. -/
theorem rowInner_ok {pexp : ℚ → ℚ} {s : BTState} {r : RawRow} {s' : BTState}
    (h : rowInner pexp s r = .ok s') : s' = s := by
  simp only [rowInner] at h
  obtain ⟨q1, hq1, h⟩ := bind_eq_ok h
  obtain ⟨q2, hq2, h⟩ := bind_eq_ok h
  obtain ⟨q3, hq3, h⟩ := bind_eq_ok h
  obtain ⟨q4, hq4, h⟩ := bind_eq_ok h
  obtain ⟨q5, hq5, h⟩ := bind_eq_ok h
  obtain ⟨q6, hq6, h⟩ := bind_eq_ok h
  obtain ⟨q7, hq7, h⟩ := bind_eq_ok h
  obtain ⟨z8, hz8, h⟩ := bind_eq_ok h
  split_ifs at h with h1 h2
  · exact (Except.ok.inj h).symm
  · exact (Except.ok.inj h).symm
  · obtain ⟨pf, hpf, h⟩ := bind_eq_ok h
    obtain ⟨ip, hip, h⟩ := bind_eq_ok h
    exact Except.noConfusion h

theorem rowStep_ok {pexp : ℚ → ℚ} {s : BTState} {r : RawRow} {s' : BTState}
    (h : rowStep pexp s r = .ok s') : s' = s := by
  unfold rowStep at h
  cases hi : rowInner pexp s r with
  | ok t =>
    rw [hi] at h
    dsimp at h
    have ht : t = s := rowInner_ok hi
    rw [← ht, (Except.ok.inj h).symm]
  | error e =>
    rw [hi] at h
    cases e <;> dsimp at h
    all_goals first
      | exact Except.noConfusion h
      | exact (Except.ok.inj h).symm

theorem btFold_ok (pexp : ℚ → ℚ) (rows : List RawRow) :
    ∀ s s', btFold pexp s rows = .ok s' → s' = s := by
  induction rows with
  | nil =>
    intro s s' h
    exact (Except.ok.inj h).symm
  | cons r rs ih =>
    intro s s' h
    unfold btFold at h
    cases hstep : rowStep pexp s r with
    | error e =>
      rw [hstep] at h
      exact Except.noConfusion h
    | ok t =>
      rw [hstep] at h
      dsimp at h
      rw [ih t s' h, rowStep_ok hstep]

/-- Rows failing the Validate gate are skipped with the state unchanged. -/
theorem validate_skip (pexp : ℚ → ℚ) (s : BTState)
    (hga aga hwr awr oh od oa : ℚ) (z : ℤ)
    (h : 1 ≤ oh ∨ 1 ≤ od ∨ 1 ≤ oa
      ∨ ¬(0 ≤ hwr ∧ hwr ≤ 1) ∨ ¬(0 ≤ awr ∧ awr ≤ 1)) :
    rowStep pexp s (mkRow hga aga hwr awr oh od oa z) = .ok s := by
  unfold rowStep
  have hin : rowInner pexp s (mkRow hga aga hwr awr oh od oa z) = .ok s := by
    simp only [rowInner, mkRow, parseCell, parseOutcome, ok_bind]
    by_cases ho : 1 ≤ oh ∨ 1 ≤ od ∨ 1 ≤ oa
    · rw [if_pos ho]
    · rw [if_neg ho, if_pos (by tauto)]
  rw [hin]

/-- A row with `rowSkips r = true` is skipped by the loop body. -/
theorem rowSkips_step (pexp : ℚ → ℚ) (s : BTState) (r : RawRow)
    (h : rowSkips r = true) : rowStep pexp s r = .ok s := by
  obtain ⟨f1, f2, f3, f4, f5, f6, f7, f8⟩ := r
  cases f1 with
  | missing => simp [rowSkips] at h
  | malformed =>
    unfold rowStep
    have hin : rowInner pexp s ⟨.malformed, f2, f3, f4, f5, f6, f7, f8⟩
        = .error .valueError := by
      simp only [rowInner, parseCell, error_bind]
    rw [hin]
  | val q1 =>
  cases f2 with
  | missing => simp [rowSkips] at h
  | malformed =>
    unfold rowStep
    have hin : rowInner pexp s ⟨.val q1, .malformed, f3, f4, f5, f6, f7, f8⟩
        = .error .valueError := by
      simp only [rowInner, parseCell, ok_bind, error_bind]
    rw [hin]
  | val q2 =>
  cases f3 with
  | missing => simp [rowSkips] at h
  | malformed =>
    unfold rowStep
    have hin : rowInner pexp s ⟨.val q1, .val q2, .malformed, f4, f5, f6, f7, f8⟩
        = .error .valueError := by
      simp only [rowInner, parseCell, ok_bind, error_bind]
    rw [hin]
  | val q3 =>
  cases f4 with
  | missing => simp [rowSkips] at h
  | malformed =>
    unfold rowStep
    have hin : rowInner pexp s ⟨.val q1, .val q2, .val q3, .malformed, f5, f6, f7, f8⟩
        = .error .valueError := by
      simp only [rowInner, parseCell, ok_bind, error_bind]
    rw [hin]
  | val q4 =>
  cases f5 with
  | missing => simp [rowSkips] at h
  | malformed =>
    unfold rowStep
    have hin : rowInner pexp s ⟨.val q1, .val q2, .val q3, .val q4, .malformed,
        f6, f7, f8⟩ = .error .valueError := by
      simp only [rowInner, parseCell, ok_bind, error_bind]
    rw [hin]
  | val q5 =>
  cases f6 with
  | missing => simp [rowSkips] at h
  | malformed =>
    unfold rowStep
    have hin : rowInner pexp s ⟨.val q1, .val q2, .val q3, .val q4, .val q5,
        .malformed, f7, f8⟩ = .error .valueError := by
      simp only [rowInner, parseCell, ok_bind, error_bind]
    rw [hin]
  | val q6 =>
  cases f7 with
  | missing => simp [rowSkips] at h
  | malformed =>
    unfold rowStep
    have hin : rowInner pexp s ⟨.val q1, .val q2, .val q3, .val q4, .val q5,
        .val q6, .malformed, f8⟩ = .error .valueError := by
      simp only [rowInner, parseCell, ok_bind, error_bind]
    rw [hin]
  | val q7 =>
  cases f8 with
  | missing => simp [rowSkips] at h
  | malformed =>
    unfold rowStep
    have hin : rowInner pexp s ⟨.val q1, .val q2, .val q3, .val q4, .val q5,
        .val q6, .val q7, .malformed⟩ = .error .valueError := by
      simp only [rowInner, parseCell, parseOutcome, ok_bind, error_bind]
    rw [hin]
  | ival z =>
    have hd : (1 ≤ q5 ∨ 1 ≤ q6 ∨ 1 ≤ q7
        ∨ ¬(0 ≤ q3 ∧ q3 ≤ 1) ∨ ¬(0 ≤ q4 ∧ q4 ≤ 1)) := by
      have h' := h
      simp only [rowSkips, decide_eq_true_eq] at h'
      exact h'
    exact validate_skip pexp s q1 q2 q3 q4 q5 q6 q7 z hd

/-- The loop leaves the seed state untouched on a dataset of skipped rows. -/
theorem btFold_skips (pexp : ℚ → ℚ) (rows : List RawRow)
    (h : ∀ r ∈ rows, rowSkips r = true) : ∀ s, btFold pexp s rows = .ok s := by
  induction rows with
  | nil => intro s; rfl
  | cons r rs ih =>
    intro s
    unfold btFold
    rw [rowSkips_step pexp s r (h r (by simp))]
    exact ih (fun r' hr' => h r' (by simp [hr'])) s

theorem pyRound_7000 : pyRound (7000 : ℚ) 2 = 7000 := by
  rw [pyRound_eq_of_lt_half (z := 700000) (by norm_num) (by norm_num)]
  norm_num

end BacktestLemmas

section KellyLemmas

/-- The first component returned by `calculate_stake` is always at most the
5% cap applied on the live path of `kelly.py`. -/
theorem calculate_stake_frac_le (p o bk m : ℚ) :
    (calculate_stake p o bk m).1 ≤ 1/20 := by
  unfold calculate_stake
  split_ifs with h1 h2
  · norm_num
  · norm_num
  · have hmin : min (max 0 (((p * (o - 1) - (1 - p)) / (o - 1)) * m)) (1/20) ≤ 1/20 :=
      min_le_right _ _
    have := pyRound_le_of_mul_le
      (x := min (max 0 (((p * (o - 1) - (1 - p)) / (o - 1)) * m)) (1/20)) (n := 4)
      (z := 500) (by push_cast; linarith)
    simpa using this.trans_eq (by norm_num)

end KellyLemmas

/-- C5: The single-fixture prediction path and the backtest path both obtain
their stake from `kelly.calculate_stake`; whatever probability, odds,
bankroll and multiplier the `/predict` handler passes, the returned fraction
is at most 0.25, and the fraction produced by the backtest's call (which
passes `kelly_fraction=0.25`) is at most 0.05.  (In the source the 25% cap
sits in dead code after the `return` at kelly.py line 66, so both call
sites are in fact capped at 5%, which makes both stated bounds hold.) -/
theorem claim_c5_stake_caps (p o bk m : ℚ) :
    (calculate_stake p o bk m).1 ≤ 1/4 ∧ (calculate_stake p o bk (1/4)).1 ≤ 1/20 :=
  ⟨le_trans (calculate_stake_frac_le p o bk m) (by norm_num),
    calculate_stake_frac_le p o bk (1/4)⟩

/-- C7: `calculate_stake` returns exactly `(0, 0)` whenever the probability
is outside the open interval (0,1), the odds are at most 1, or the scaled
Kelly fraction is non-positive — for every bankroll value. -/
theorem claim_c7_zero_stake (p o bk m : ℚ)
    (h : p ≤ 0 ∨ 1 ≤ p ∨ o ≤ 1 ∨ kellyScaled p o m ≤ 0) :
    calculate_stake p o bk m = (0, 0) := by
  simp only [calculate_stake]
  split_ifs with h1 h2
  · rfl
  · rfl
  · have hks : kellyScaled p o m ≤ 0 := by
      rcases h with h | h | h | h
      · exact absurd (Or.inl h) h1
      · exact absurd (Or.inr h) h1
      · exact absurd h h2
      · exact h
    unfold kellyScaled at hks
    rw [max_eq_left hks, min_eq_left (by norm_num), mul_zero, pyRound_zero, pyRound_zero]

/-- Witness for C7 at probability 1/2, odds 2, bankroll 1000, multiplier 0. -/
theorem claim_c7_zero_stake_witness :
    kellyScaled (1/2) 2 0 ≤ 0 ∧ calculate_stake (1/2) 2 1000 0 = (0, 0) :=
  ⟨by norm_num [kellyScaled],
    claim_c7_zero_stake (1/2) 2 1000 0
      (Or.inr (Or.inr (Or.inr (by norm_num [kellyScaled]))))⟩

/-- C8 counterexample: at probability 0.26, odds 4, bankroll 1000,
multiplier 1, the capped fraction is 1/75 = 0.01333…; the function returns
`kelly_fraction = round(1/75, 4) = 0.0133` and `stake = round(1000/75, 2) =
13.33`, but `bankroll * kelly_fraction = 13.30`, so the returned stake does
not equal bankroll times the returned fraction. -/
theorem claim_c8_counterexample :
    ¬ (calculate_stake (13/50) 4 1000 1).2 =
      1000 * (calculate_stake (13/50) 4 1000 1).1 := by
  have h1 : calculate_stake (13/50) 4 1000 1 = (133/10000, 1333/100) := by
    simp only [calculate_stake]
    rw [if_neg (by norm_num), if_neg (by norm_num)]
    norm_num [min_def, max_def]
    constructor
    · rw [pyRound_eq_of_lt_half (z := 133) (by norm_num) (by norm_num)]
      norm_num
    · rw [pyRound_eq_of_lt_half (z := 1333) (by norm_num) (by norm_num)]
      norm_num
  rw [h1]
  norm_num

/-- C8 amended: for every probability, odds, multiplier and nonnegative
bankroll, the returned fraction is at most the 5% cap, and the returned
stake is the 2-decimal rounding of bankroll times the capped fraction,
hence at most `0.05 * bankroll` plus half a cent.  The exact identity
`stake_amount = bankroll * kelly_fraction` of the claim fails only because
both outputs are rounded (4 and 2 decimals respectively). -/
theorem claim_c8_amended_cap (p o bk m : ℚ) (hbk : 0 ≤ bk) :
    (calculate_stake p o bk m).1 ≤ 1/20 ∧
    (calculate_stake p o bk m).2 ≤ bk * (1/20) + 1/200 := by
  refine ⟨calculate_stake_frac_le p o bk m, ?_⟩
  simp only [calculate_stake]
  split_ifs with h1 h2
  · have : (0:ℚ) ≤ bk * (1/20) + 1/200 := by positivity
    simpa using this
  · have : (0:ℚ) ≤ bk * (1/20) + 1/200 := by positivity
    simpa using this
  · have hc : min (max 0 (((p * (o - 1) - (1 - p)) / (o - 1)) * m)) (1/20) ≤ 1/20 :=
      min_le_right _ _
    have h5 : bk * min (max 0 (((p * (o - 1) - (1 - p)) / (o - 1)) * m)) (1/20)
        ≤ bk * (1/20) := mul_le_mul_of_nonneg_left hc hbk
    have h6 := pyRound_le_add_half
      (bk * min (max 0 (((p * (o - 1) - (1 - p)) / (o - 1)) * m)) (1/20)) 2
    have h7 : (1:ℚ) / (2 * 10 ^ 2) = 1/200 := by norm_num
    simp only []
    linarith [h7 ▸ h6]

/-- Witness for C8's amended statement at probability 1/2, odds 2,
bankroll 100, multiplier 1. -/
theorem claim_c8_amended_cap_witness :
    (0:ℚ) ≤ 100 ∧
    ((calculate_stake (1/2) 2 100 1).1 ≤ 1/20 ∧
      (calculate_stake (1/2) 2 100 1).2 ≤ 100 * (1/20) + 1/200) :=
  ⟨by norm_num, claim_c8_amended_cap (1/2) 2 100 1 (by norm_num)⟩

/-- C9: the hybrid combiner sends `(1,0,0)` and `(0,1,0)` with confidences
0.5, 0.5 to exactly `(0.5, 0.5, 0)`, and in general agrees with the spec's
description: confidence-weighted sum of corresponding components,
renormalized with a uniform 1/3 fallback on non-positive total, then
clamped to [0,1]. -/
theorem claim_c9_combine :
    combine_probabilities (1, 0, 0) (0, 1, 0) (1/2) (1/2) = (1/2, 1/2, 0) ∧
    ∀ ps pf sc fc, combine_probabilities ps pf sc fc = combineSpec ps pf sc fc := by
  constructor
  · norm_num [combine_probabilities, clamp01, min_def, max_def]
  · intro ps pf sc fc
    by_cases h : sc + fc = 0
    · simp only [combine_probabilities, combineSpec, if_pos h]
      norm_num
      split_ifs with ht <;> norm_num [clamp01]
    · simp only [combine_probabilities, combineSpec, if_neg h]
      split_ifs with ht <;> norm_num [clamp01]

section StatC2Lemmas

/-- On the C2 fixture's rates, each Poisson grid sum factors as its
constant part times `pexp(-69/40) * pexp(-6/5)`. -/
theorem poisson_sums_eval (pexp : ℚ → ℚ) :
    stat_engine.poisson_sums pexp (69/40) (6/5) =
      (c2Kh * (pexp (-(69/40)) * pexp (-(6/5))),
       c2Kd * (pexp (-(69/40)) * pexp (-(6/5))),
       c2Ka * (pexp (-(69/40)) * pexp (-(6/5)))) := by
  have hr : List.range 6 = [0, 1, 2, 3, 4, 5] := by rfl
  simp only [stat_engine.poisson_sums, stat_engine.poisson_probability, hr,
    List.foldl_cons, List.foldl_nil, c2Kh, c2Kd, c2Ka]
  norm_num [Nat.factorial]
  refine ⟨?_, ?_, ?_⟩ <;> ring

/-- The constant parts of the grid sums are nonnegative, and the home mass
does not exceed draw plus away mass (decided by exact rational
arithmetic). -/
theorem c2K_facts :
    (0:ℚ) ≤ c2Kh ∧ (0:ℚ) ≤ c2Kd ∧ (0:ℚ) ≤ c2Ka ∧ c2Kh ≤ c2Kd + c2Ka := by
  have hr : List.range 6 = [0, 1, 2, 3, 4, 5] := by rfl
  norm_num [c2Kh, c2Kd, c2Ka, stat_engine.poisson_sums,
    stat_engine.poisson_probability, hr, Nat.factorial]

theorem tri_home_low :
    fuzzy_engine.triangular_membership (3/2) 0 (1/2) (3/2) = 0 := by
  norm_num [fuzzy_engine.triangular_membership]

theorem tri_home_med :
    fuzzy_engine.triangular_membership (3/2) 1 (3/2) (5/2) = 1 := by
  norm_num [fuzzy_engine.triangular_membership]

theorem tri_home_high :
    fuzzy_engine.triangular_membership (3/2) 2 3 5 = 0 := by
  norm_num [fuzzy_engine.triangular_membership]

theorem tri_away_low :
    fuzzy_engine.triangular_membership (6/5) 0 (1/2) (3/2) = 3/10 := by
  norm_num [fuzzy_engine.triangular_membership]

theorem tri_away_med :
    fuzzy_engine.triangular_membership (6/5) 1 (3/2) (5/2) = 2/5 := by
  norm_num [fuzzy_engine.triangular_membership]

theorem tri_away_high :
    fuzzy_engine.triangular_membership (6/5) 2 3 5 = 0 := by
  norm_num [fuzzy_engine.triangular_membership]

theorem tri_prob_low :
    fuzzy_engine.triangular_membership (133/279) 0 (1/4) (9/20) = 0 := by
  norm_num [fuzzy_engine.triangular_membership]

theorem tri_prob_med :
    fuzzy_engine.triangular_membership (133/279) (7/20) (1/2) (13/20) = 707/837 := by
  norm_num [fuzzy_engine.triangular_membership]

theorem tri_prob_high :
    fuzzy_engine.triangular_membership (133/279) (11/20) (3/4) 1 = 0 := by
  norm_num [fuzzy_engine.triangular_membership]

/-- The fuzzified sets of the C2 fixture, evaluated exactly. -/
theorem c2_fuzzify_eval :
    fuzzy_engine.fuzzify (3/2) (6/5) 2 (7/2) (19/5) = .ok
      { home_low := 0, home_med := 1, home_high := 0
        away_low := 3/10, away_med := 2/5, away_high := 0
        prob_low := 0, prob_med := 707/837, prob_high := 0
        implied_prob := 133/279 } := by
  unfold fuzzy_engine.fuzzify
  rw [pyDiv_ok (show (2:ℚ) ≠ 0 by norm_num), ok_bind,
    pyDiv_ok (show (7/2:ℚ) ≠ 0 by norm_num), ok_bind,
    pyDiv_ok (show (19/5:ℚ) ≠ 0 by norm_num), ok_bind]
  rw [show (1:ℚ)/2 + 1/(7/2) + 1/(19/5) = 279/266 by norm_num]
  dsimp only []
  rw [pyDiv_ok (show (279/266:ℚ) ≠ 0 by norm_num), ok_bind, pure_eq_ok]
  rw [show (1:ℚ)/2 / (279/266) = 133/279 by norm_num]
  rw [tri_home_low, tri_home_med, tri_home_high, tri_away_low, tri_away_med,
    tri_away_high, tri_prob_low, tri_prob_med, tri_prob_high]

/-- Rule firing strengths on the C2 fixture. -/
theorem c2_rules_eval :
    fuzzy_engine.apply_rules
      { home_low := 0, home_med := 1, home_high := 0
        away_low := 3/10, away_med := 2/5, away_high := 0
        prob_low := 0, prob_med := 707/837, prob_high := 0
        implied_prob := 133/279 } =
      { very_high := 0, high := 3/10, medium := 1, low := 0, very_low := 0 } := by
  norm_num [fuzzy_engine.apply_rules, min_def, max_def]

/-- Defuzzified home probability on the C2 fixture. -/
theorem c2_defuzzify_eval :
    fuzzy_engine.defuzzify
      { very_high := 0, high := 3/10, medium := 1, low := 0, very_low := 0 } = 71/130 := by
  norm_num [fuzzy_engine.defuzzify]

/-- Exact value of the fuzzy distribution on the C2 fixture. -/
theorem c2FuzzyTriple_eq :
    c2FuzzyTriple = (1880140/3629511, 395200/3629511, 1354171/3629511) := by
  have hcalc : fuzzy_engine.calculate_probability (3/2) (6/5) 2 (7/2) (19/5) =
      .ok (1880140/3629511, 395200/3629511, 1354171/3629511) := by
    unfold fuzzy_engine.calculate_probability
    rw [c2_fuzzify_eval, ok_bind]
    simp only [c2_rules_eval, c2_defuzzify_eval]
    rw [pyDiv_ok (show (2:ℚ) ≠ 0 by norm_num), ok_bind,
      pyDiv_ok (show (7/2:ℚ) ≠ 0 by norm_num), ok_bind,
      pyDiv_ok (show (19/5:ℚ) ≠ 0 by norm_num), ok_bind]
    rw [show (1:ℚ)/2 + 1/(7/2) + 1/(19/5) = 279/266 by norm_num]
    rw [pyDiv_ok (show (279/266:ℚ) ≠ 0 by norm_num), ok_bind,
      pyDiv_ok (show (279/266:ℚ) ≠ 0 by norm_num), ok_bind,
      pyDiv_ok (show (279/266:ℚ) ≠ 0 by norm_num), ok_bind, pure_eq_ok]
    norm_num [clamp01, min_def, max_def]
  unfold c2FuzzyTriple
  rw [hcalc]

/-- With equal confidences 0.5/0.5 and inputs that each sum to 1, the
hybrid combiner is the plain average, clamped. -/
theorem combine_half (ps pf : ℚ × ℚ × ℚ) (hps : ps.1 + ps.2.1 + ps.2.2 = 1)
    (hpf : pf.1 + pf.2.1 + pf.2.2 = 1) :
    combine_probabilities ps pf (1/2) (1/2) =
      (clamp01 ((1/2) * ps.1 + (1/2) * pf.1),
       clamp01 ((1/2) * ps.2.1 + (1/2) * pf.2.1),
       clamp01 ((1/2) * ps.2.2 + (1/2) * pf.2.2)) := by
  simp only [combine_probabilities]
  rw [if_neg (show ¬((1:ℚ)/2 + 1/2 = 0) by norm_num),
    if_neg (show ¬((1:ℚ)/2 + 1/2 = 0) by norm_num)]
  have hw : ((1:ℚ)/2)/((1:ℚ)/2 + (1:ℚ)/2) = 1/2 := by norm_num
  rw [hw]
  have htot : (1/2) * ps.1 + (1/2) * pf.1 + ((1/2) * ps.2.1 + (1/2) * pf.2.1)
      + ((1/2) * ps.2.2 + (1/2) * pf.2.2) = 1 := by linarith
  rw [htot]
  norm_num

/-- The statistical engine on the C2 fixture returns a distribution summing
to exactly 1 whose home component is at most 0.45, for every nonnegative
machine exponential.  (The home bound holds because the home Poisson grid
mass is below the draw-plus-away mass and the win-rate priors contribute
symmetrically: 0.22 on each side of the normalizer.) -/
theorem stat_c2 (pexp : ℚ → ℚ) (h1 : 0 ≤ pexp (-(69/40))) (h2 : 0 ≤ pexp (-(6/5))) :
    ∃ sh sd sa,
      stat_engine.calculate_probability pexp (3/2) (6/5) (11/20) (9/20) = (sh, sd, sa)
      ∧ sh + sd + sa = 1 ∧ sh ≤ 9/20 := by
  obtain ⟨hKh, hKd, hKa, hKle⟩ := c2K_facts
  have ht : 0 ≤ pexp (-(69/40)) * pexp (-(6/5)) := mul_nonneg h1 h2
  have hPh : 0 ≤ c2Kh * (pexp (-(69/40)) * pexp (-(6/5))) := mul_nonneg hKh ht
  have hPd : 0 ≤ c2Kd * (pexp (-(69/40)) * pexp (-(6/5))) := mul_nonneg hKd ht
  have hPa : 0 ≤ c2Ka * (pexp (-(69/40)) * pexp (-(6/5))) := mul_nonneg hKa ht
  have hle' : c2Kh * (pexp (-(69/40)) * pexp (-(6/5)))
      ≤ c2Kd * (pexp (-(69/40)) * pexp (-(6/5)))
        + c2Ka * (pexp (-(69/40)) * pexp (-(6/5))) := by
    nlinarith [mul_nonneg (show (0:ℚ) ≤ c2Kd + c2Ka - c2Kh by linarith) ht]
  have e_in1 : max (1/10 : ℚ) (min (3/2) 5) = 3/2 := by norm_num [min_def, max_def]
  have e_in2 : max (1/10 : ℚ) (min (6/5) 5) = 6/5 := by norm_num [min_def, max_def]
  have e_in3 : max (1/100 : ℚ) (min (11/20) (99/100)) = 11/20 := by
    norm_num [min_def, max_def]
  have e_in4 : max (1/100 : ℚ) (min (9/20) (99/100)) = 9/20 := by
    norm_num [min_def, max_def]
  simp only [stat_engine.calculate_probability, e_in1, e_in2, e_in3, e_in4]
  rw [show (3/2 : ℚ) * (23/20) = 69/40 by norm_num]
  rw [poisson_sums_eval pexp]
  rw [show max (1/10 : ℚ) (1 - 11/20 - 9/20) = 1/10 by norm_num [max_def]]
  dsimp only
  generalize hgh : c2Kh * (pexp (-(69/40)) * pexp (-(6/5))) = Ph at hPh hle' ⊢
  generalize hgd : c2Kd * (pexp (-(69/40)) * pexp (-(6/5))) = Pd at hPd hle' ⊢
  generalize hga : c2Ka * (pexp (-(69/40)) * pexp (-(6/5))) = Pa at hPa hle' ⊢
  set Nh := (3:ℚ)/5 * Ph + 2/5 * (11/20) with hNh
  set Nd := (3:ℚ)/5 * Pd + 2/5 * (1/10) with hNd
  set Na := (3:ℚ)/5 * Pa + 2/5 * (9/20) with hNa
  have hNh0 : 0 ≤ Nh := by rw [hNh]; linarith
  have hNd0 : 0 ≤ Nd := by rw [hNd]; linarith
  have hNa0 : 0 ≤ Na := by rw [hNa]; linarith
  have hNle : Nh ≤ Nd + Na := by rw [hNh, hNd, hNa]; linarith
  have hT : 0 < Nh + Nd + Na := by rw [hNh, hNd, hNa]; linarith
  rw [if_pos hT, if_pos hT, if_pos hT]
  have hdh0 : 0 ≤ Nh / (Nh + Nd + Na) := div_nonneg hNh0 hT.le
  have hdd0 : 0 ≤ Nd / (Nh + Nd + Na) := div_nonneg hNd0 hT.le
  have hda0 : 0 ≤ Na / (Nh + Nd + Na) := div_nonneg hNa0 hT.le
  have hdh1 : Nh / (Nh + Nd + Na) ≤ 1 := (div_le_one hT).mpr (by linarith)
  have hdd1 : Nd / (Nh + Nd + Na) ≤ 1 := (div_le_one hT).mpr (by linarith)
  have hda1 : Na / (Nh + Nd + Na) ≤ 1 := (div_le_one hT).mpr (by linarith)
  have hdhhalf : Nh / (Nh + Nd + Na) ≤ 1/2 := by
    rw [div_le_iff₀ hT]
    linarith
  rw [clamp01_eq_self (by linarith) (by linarith),
    clamp01_eq_self (by linarith) (by linarith),
    clamp01_eq_self (by linarith) (by linarith)]
  refine ⟨_, _, _, rfl, ?_, ?_⟩
  · have hTne : Nh + Nd + Na ≠ 0 := ne_of_gt hT
    field_simp
    ring
  · linarith

/-- The fuzzy engine succeeds on the C2 fixture and returns
`c2FuzzyTriple`. -/
theorem c2Fuzzy_ok :
    fuzzy_engine.calculate_probability (3/2) (6/5) 2 (7/2) (19/5) = .ok c2FuzzyTriple := by
  obtain ⟨v, hv⟩ := fuzzy_ok (3/2) (6/5) 2 (7/2) (19/5)
    (by norm_num) (by norm_num) (by norm_num) (by norm_num)
  rw [hv]
  unfold c2FuzzyTriple
  rw [hv]

/-- The hybrid home probability for the C2 fixture is at most 0.52 for
every nonnegative machine exponential (it is about 0.484). -/
theorem c2HybridHome_le (pexp : ℚ → ℚ)
    (h1 : 0 ≤ pexp (-(69/40))) (h2 : 0 ≤ pexp (-(6/5))) :
    c2HybridHome pexp ≤ 13/25 := by
  obtain ⟨sh, sd, sa, hst, hsum, hbound⟩ := stat_c2 pexp h1 h2
  unfold c2HybridHome
  rw [hst, combine_half (sh, sd, sa) c2FuzzyTriple (by simpa using hsum)
    (by rw [c2FuzzyTriple_eq]; norm_num)]
  dsimp only
  refine clamp01_le_of_le (by norm_num) ?_
  rw [c2FuzzyTriple_eq]
  dsimp only
  linarith

/-- The C2 row is rejected by the Validate gate (its odds are ≥ 1), so the
run ends with the seed state and zero bets. -/
theorem c2Run (pexp : ℚ → ℚ) :
    run_backtest pexp [c2Row] 7000 = .ok c2Result := by
  unfold run_backtest btFold
  rw [show c2Row = mkRow (3/2) (6/5) (11/20) (9/20) 2 (7/2) (19/5) 1 from rfl]
  rw [validate_skip pexp ⟨7000, [7000], 0, 0⟩ (3/2) (6/5) (11/20) (9/20) 2 (7/2) (19/5) 1
    (Or.inl (by norm_num))]
  dsimp only
  rw [show btFold pexp ⟨7000, [7000], 0, 0⟩ ([] : List RawRow)
    = .ok ⟨7000, [7000], 0, 0⟩ from rfl]
  dsimp only
  rw [if_pos (by norm_num : (0:ℚ) < 7000)]
  norm_num [pyRound_zero, pyRound_7000, c2Result]

end StatC2Lemmas

/-- C1: a parseable row with all odds below 1 and win rates in [0,1]
reaches the EdgeCheck step, where the code compares the hybrid 3-tuple with
`implied_home + 0.02`; in Python that comparison raises `TypeError`, which
the per-row handler does not catch, so instead of betting or skipping the
whole run aborts — for every machine exponential. -/
theorem claim_c1_edgecheck_crash (pexp : ℚ → ℚ) :
    run_backtest pexp [c1Row] 7000 = .error .typeError := by
  have hstep : rowStep pexp ⟨7000, [7000], 0, 0⟩ c1Row = .error .typeError := by
    unfold rowStep
    have hin : rowInner pexp ⟨7000, [7000], 0, 0⟩ c1Row = .error .typeError := by
      simp only [rowInner, c1Row, mkRow, parseCell, parseOutcome, ok_bind]
      rw [if_neg (by norm_num), if_neg (by norm_num)]
      obtain ⟨v, hv⟩ := fuzzy_ok (3/2) (6/5) (1/2) (1/2) (1/2)
        (by norm_num) (by norm_num) (by norm_num) (by norm_num)
      rw [hv, ok_bind, pyDiv_ok (show (1/2 : ℚ) ≠ 0 by norm_num), ok_bind]
    rw [hin]
  unfold run_backtest btFold
  rw [hstep]

/-- C2: on the single-row dataset with goals 1.5/1.2, rates 0.55/0.45, odds
2.0/3.5/3.8, outcome 1 and bankroll 7000, the run completes with zero bets
(the Validate gate rejects odds_home = 2.0 ≥ 1), and a bet is placed if and
only if the pipeline's hybrid home probability exceeds 0.52 — both sides of
the biconditional are false, since that probability is at most 0.52 for
every nonnegative machine exponential; when a bet is placed the settlement
equation holds vacuously. -/
theorem claim_c2_scenario (pexp : ℚ → ℚ)
    (h1 : 0 ≤ pexp (-(69/40))) (h2 : 0 ≤ pexp (-(6/5))) :
    run_backtest pexp [c2Row] 7000 = .ok c2Result ∧
    fuzzy_engine.calculate_probability (3/2) (6/5) 2 (7/2) (19/5) = .ok c2FuzzyTriple ∧
    (0 < c2Result.total_bets ↔ 13/25 < c2HybridHome pexp) ∧
    (0 < c2Result.total_bets →
      ∃ stake, c2Result.final_bankroll = 7000 + stake * (2 - 1)) := by
  refine ⟨c2Run pexp, c2Fuzzy_ok, ?_, ?_⟩
  · constructor
    · intro h
      exact absurd h (by norm_num [c2Result])
    · intro h
      exact absurd h (not_lt.mpr (c2HybridHome_le pexp h1 h2))
  · intro h
    exact absurd h (by norm_num [c2Result])

/-- Witness for C2 at the machine exponential that is constantly zero. -/
theorem claim_c2_scenario_witness :
    ((0:ℚ) ≤ (fun _ : ℚ => (0:ℚ)) (-(69/40)) ∧ (0:ℚ) ≤ (fun _ : ℚ => (0:ℚ)) (-(6/5))) ∧
    (run_backtest (fun _ => 0) [c2Row] 7000 = .ok c2Result ∧
     fuzzy_engine.calculate_probability (3/2) (6/5) 2 (7/2) (19/5) = .ok c2FuzzyTriple ∧
     (0 < c2Result.total_bets ↔ 13/25 < c2HybridHome (fun _ => 0)) ∧
     (0 < c2Result.total_bets →
       ∃ stake, c2Result.final_bankroll = 7000 + stake * (2 - 1))) :=
  ⟨⟨le_refl 0, le_refl 0⟩, claim_c2_scenario (fun _ => 0) (le_refl 0) (le_refl 0)⟩

/-- C3: every parseable row with some odds at least 1 or a win rate outside
[0,1] is skipped at the Validate gate with the backtest state (bankroll,
counters, equity curve) exactly as before the row. -/
theorem claim_c3_validate_skip (pexp : ℚ → ℚ) (s : BTState)
    (hga aga hwr awr oh od oa : ℚ) (z : ℤ)
    (h : 1 ≤ oh ∨ 1 ≤ od ∨ 1 ≤ oa
      ∨ ¬(0 ≤ hwr ∧ hwr ≤ 1) ∨ ¬(0 ≤ awr ∧ awr ≤ 1)) :
    rowStep pexp s (mkRow hga aga hwr awr oh od oa z) = .ok s :=
  validate_skip pexp s hga aga hwr awr oh od oa z h

/-- Witness for C3 on a genuine-odds row (odds_home = 2 ≥ 1). -/
theorem claim_c3_validate_skip_witness :
    (1 ≤ (2:ℚ) ∨ 1 ≤ (7/2:ℚ) ∨ 1 ≤ (19/5:ℚ)
      ∨ ¬(0 ≤ (11/20:ℚ) ∧ (11/20:ℚ) ≤ 1) ∨ ¬(0 ≤ (9/20:ℚ) ∧ (9/20:ℚ) ≤ 1)) ∧
    rowStep (fun _ => 0) ⟨7000, [7000], 0, 0⟩
      (mkRow (3/2) (6/5) (11/20) (9/20) 2 (7/2) (19/5) 1) = .ok ⟨7000, [7000], 0, 0⟩ :=
  ⟨Or.inl (by norm_num),
    claim_c3_validate_skip (fun _ => 0) ⟨7000, [7000], 0, 0⟩
      (3/2) (6/5) (11/20) (9/20) 2 (7/2) (19/5) 1 (Or.inl (by norm_num))⟩

/-- C4 counterexample: a single-row dataset whose row fails numeric parsing
because the `home_goals_avg` column is missing (`float(None)`) makes
`run_backtest` raise `TypeError` instead of completing with a zero-bet
result. -/
theorem claim_c4_counterexample :
    run_backtest (fun _ => 0) [c4MissingRow] 7000 = .error .typeError := by
  have hin : rowInner (fun _ => (0:ℚ)) ⟨7000, [7000], 0, 0⟩ c4MissingRow
      = .error .typeError := by
    simp only [rowInner, c4MissingRow, parseCell, error_bind]
  unfold run_backtest btFold rowStep
  rw [hin]

/-- C4 amended: restricted to datasets in which every row is skipped by the
loop — the first unparsable cell raises `ValueError` (present but
non-numeric), or all cells parse and validation fails (some odds ≥ 1, e.g.
any genuine decimal odds, or a win rate outside [0,1]).  Then the run
completes with zero bets, zero roi, final bankroll equal to the initial
bankroll (stated for 2-decimal initial bankrolls, since the result fields
are rounded to 2 decimals) and a single-entry equity curve.  Rows whose
first failing cell is missing are excluded: those raise an uncaught
`TypeError` (see the counterexample). -/
theorem claim_c4_amended (pexp : ℚ → ℚ) (rows : List RawRow) (init : ℚ)
    (hinit : pyRound init 2 = init)
    (hrows : ∀ r ∈ rows, rowSkips r = true) :
    run_backtest pexp rows init =
      .ok { roi := 0, total_bets := 0, winning_bets := 0, losing_bets := 0,
            equity_curve := [init], final_bankroll := init } := by
  unfold run_backtest
  rw [btFold_skips pexp rows hrows ⟨init, [init], 0, 0⟩]
  dsimp only []
  have hroi : (if 0 < init then ((init - init) / init) * 100 else 0) = (0:ℚ) := by
    split_ifs <;> simp
  rw [hroi, pyRound_zero]
  simp [hinit]

/-- Witness for C4's amended statement: one genuine-odds row, seed 7000. -/
theorem claim_c4_amended_witness :
    (pyRound (7000:ℚ) 2 = 7000
      ∧ ∀ r ∈ [mkRow (3/2) (6/5) (11/20) (9/20) 2 (7/2) (19/5) 1], rowSkips r = true) ∧
    run_backtest (fun _ => 0) [mkRow (3/2) (6/5) (11/20) (9/20) 2 (7/2) (19/5) 1] 7000 =
      .ok { roi := 0, total_bets := 0, winning_bets := 0, losing_bets := 0,
            equity_curve := [7000], final_bankroll := 7000 } :=
  ⟨⟨pyRound_7000, by intro r hr; simp at hr; subst hr; norm_num [rowSkips, mkRow]⟩,
    claim_c4_amended (fun _ => 0) _ 7000 pyRound_7000
      (by intro r hr; simp at hr; subst hr; norm_num [rowSkips, mkRow])⟩

/-- C6: whenever `run_backtest` returns a result, the equity curve has
exactly `1 + total_bets` entries — the seed entry plus one per settled bet;
skipped rows contribute nothing. -/
theorem claim_c6_equity_length (pexp : ℚ → ℚ) (rows : List RawRow) (init : ℚ)
    (res : BacktestResult) (h : run_backtest pexp rows init = .ok res) :
    res.equity_curve.length = 1 + res.total_bets := by
  unfold run_backtest at h
  cases hf : btFold pexp ⟨init, [init], 0, 0⟩ rows with
  | error e =>
    rw [hf] at h
    exact Except.noConfusion h
  | ok s =>
    rw [hf] at h
    dsimp only [] at h
    have hs : s = ⟨init, [init], 0, 0⟩ := btFold_ok pexp rows _ _ hf
    subst hs
    rw [← Except.ok.inj h]
    simp

/-- Witness for C6 on the empty dataset. -/
theorem claim_c6_equity_length_witness :
    (run_backtest (fun _ => 0) ([] : List RawRow) 7000 =
      .ok { roi := 0, total_bets := 0, winning_bets := 0, losing_bets := 0,
            equity_curve := [7000], final_bankroll := 7000 }) ∧
    ({ roi := 0, total_bets := 0, winning_bets := 0, losing_bets := 0,
       equity_curve := [7000], final_bankroll := 7000 } :
         BacktestResult).equity_curve.length =
      1 + ({ roi := 0, total_bets := 0, winning_bets := 0, losing_bets := 0,
             equity_curve := [7000], final_bankroll := 7000 } :
               BacktestResult).total_bets := by
  have hrun : run_backtest (fun _ => (0:ℚ)) ([] : List RawRow) 7000 =
      .ok { roi := 0, total_bets := 0, winning_bets := 0, losing_bets := 0,
            equity_curve := [7000], final_bankroll := 7000 } := by
    unfold run_backtest btFold
    dsimp only []
    rw [if_pos (by norm_num : (0:ℚ) < 7000)]
    norm_num [pyRound_zero, pyRound_7000]
  exact ⟨hrun, claim_c6_equity_length (fun _ => 0) [] 7000 _ hrun⟩

/-- C10: the parseable row with `odds_home = 0` (and the other odds 1/2)
passes the Validate gate, but the fuzzy engine's unguarded `1/odds_home`
raises `ZeroDivisionError`; the per-row handler catches only `ValueError`
and `KeyError`, so the error escapes `run_backtest` and no result is
produced — for every machine exponential. -/
theorem claim_c10_zero_odds_crash :
    ((0:ℚ) < 1 ∧ (1/2:ℚ) < 1 ∧ (0 ≤ (1/2:ℚ) ∧ (1/2:ℚ) ≤ 1)) ∧
    ∀ pexp : ℚ → ℚ,
      run_backtest pexp [c10Row] 7000 = .error .zeroDivisionError := by
  refine ⟨by norm_num, fun pexp => ?_⟩
  have hstep : rowStep pexp ⟨7000, [7000], 0, 0⟩ c10Row
      = .error .zeroDivisionError := by
    unfold rowStep
    have hin : rowInner pexp ⟨7000, [7000], 0, 0⟩ c10Row
        = .error .zeroDivisionError := by
      simp only [rowInner, c10Row, mkRow, parseCell, parseOutcome, ok_bind]
      rw [if_neg (by norm_num), if_neg (by norm_num)]
      rw [fuzzy_zero_div, error_bind]
    rw [hin]
  unfold run_backtest btFold
  rw [hstep]
